import Mathlib

/-!
Shallow embedding of the crudapi repository's CRUD-route-generation core:
schema derivation (`_schema_factory`), pagination validation
(`pagination_factory` / `create_query_validation_exception`), the six CRUD
handlers of `AsyncCRUDRouter` in `src/crudapi/router.py`, the module's name
environment, and the two space-insertion helpers (`_make_spaces` in
`src/crudapi/router.py`, `_spaces_on_capital` in `src/application/router.py`).
-/

namespace CrudApi

/-! ## Data-model definitions and derived schemas

A pydantic/SQLModel field is modelled by its name and (opaque) declared type;
a model class by its `__name__`, `__module__` and field list. -/

structure FieldDef where
  name : String
  type : String
  deriving DecidableEq, Repr

structure ModelDef where
  modName : String
  modModule : String
  fields : List FieldDef
  deriving DecidableEq, Repr

/-- A field of a schema produced by `pydantic.create_model`: the `(f.type_, ...)`
pair in the source; `default = none` models the Ellipsis (field required, no
validation default). -/
structure DerivedField where
  name : String
  type : String
  default : Option String
  deriving DecidableEq, Repr

structure DerivedSchema where
  schemaName : String
  fields : List DerivedField
  deriving DecidableEq, Repr

/-- Python's `str.split(".")` at the character level (always at least one,
possibly empty, piece). -/
def splitOnDot : List Char → List (List Char)
  | [] => [[]]
  | c :: cs =>
    let r := splitOnDot cs
    if c = '.' then [] :: r
    else
      match r with
      | [] => [[c]]
      | w :: ws => (c :: w) :: ws

/-- Last dotted component of `__module__`: the source's
`*_, module = schema_cls.__module__.split(".")`. -/
def lastModuleComponent (module : String) : String :=
  ⟨(splitOnDot module.toList).getLastD module.toList⟩

/-- Embedding of `_schema_factory` (src/crudapi/router.py lines 215-230):
keep every field whose name is not excluded, as a required field of the same
type, under the generated name `{module}{name}{action}`. The function is
total: the source has no failure path. -/
def schema_factory (schema_cls : ModelDef) (exclude : List String) (action : String) :
    DerivedSchema :=
  { schemaName := lastModuleComponent schema_cls.modModule ++ schema_cls.modName ++ action
    fields := (schema_cls.fields.filter (fun f => !(exclude.contains f.name))).map
      (fun f => { name := f.name, type := f.type, default := none }) }

/-! ## Router construction: the schema-derivation phase

`AsyncCRUDRouter` declares `exclude: set = {"created_at","updated_at","id"}`
and `pk_field: str = "uuid"` as class attributes.  `__init__` computes the
read schema from `self.exclude`, then executes `self.exclude.add(self.pk_field)`
— mutating the class-level set shared by all instances — before deriving the
create/update schemas.  A process run constructing several routers threads
that shared set from one construction to the next. -/

def classExclude : List String := ["created_at", "updated_at", "id"]

def pk_field : String := "uuid"

structure RouteGroupSchemas where
  readSchema : DerivedSchema
  createSchema : DerivedSchema
  updateSchema : DerivedSchema
  deriving DecidableEq, Repr

/-- One `AsyncCRUDRouter.__init__` schema phase (src/crudapi/router.py lines
30-38), given the current contents of the shared class-level `exclude` set;
returns the three derived schemas and the set's new contents (`set.add` is a
no-op when the element is already present). -/
def routerSchemas (exclude : List String) (sql_model : ModelDef) :
    RouteGroupSchemas × List String :=
  let schema := schema_factory sql_model exclude ""
  let exclude2 := if pk_field ∈ exclude then exclude else exclude ++ [pk_field]
  let create_schema := schema_factory sql_model exclude2 "Create"
  let update_schema := schema_factory sql_model exclude2 "Update"
  (⟨schema, create_schema, update_schema⟩, exclude2)

/-- A process run registering the given models in order, threading the shared
class attribute `AsyncCRUDRouter.exclude` (initially `classExclude`). -/
def processRun (ms : List ModelDef) : List RouteGroupSchemas :=
  (ms.foldl
    (fun (acc : List RouteGroupSchemas × List String) m =>
      let g := routerSchemas acc.2 m
      (acc.1 ++ [g.1], g.2))
    ([], classExclude)).1

/-! ## Pagination validation -/

/-- The `HTTPException(422, detail=...)` built by
`create_query_validation_exception` (src/crudapi/router.py lines 262-270). -/
structure QueryValidationError where
  status : Nat
  loc : List String
  msg : String
  errType : String
  deriving DecidableEq, Repr

def create_query_validation_exception (field msg : String) : QueryValidationError :=
  { status := 422
    loc := ["query", field]
    msg := msg
    errType := "type_error.integer" }

/-- The dict `{"skip": skip, "limit": limit}` returned by the validator. -/
structure PaginationReq where
  skip : Int
  limit : Option Int
  deriving DecidableEq, Repr

/-- The effective `limit` seen by the validator body: the query parameter if
present, else the signature default `max_limit`. -/
def effLimit (max_limit limitParam : Option Int) : Option Int :=
  match limitParam with
  | some v => some v
  | none => max_limit

/-- Embedding of the `pagination` closure produced by
`pagination_factory(max_limit)` (src/crudapi/router.py lines 233-259).
`skipParam`/`limitParam` are the raw query parameters (`none` = absent, so the
signature defaults `skip=0`, `limit=max_limit` apply).  The `elif max_limit
and max_limit < limit` guard uses Python truthiness: a `max_limit` of `0` is
falsy and enforces no ceiling. -/
def pagination (max_limit : Option Int) (skipParam limitParam : Option Int) :
    Except QueryValidationError PaginationReq :=
  let skip : Int := skipParam.getD 0
  let limit : Option Int := effLimit max_limit limitParam
  if skip < 0 then
    .error (create_query_validation_exception "skip"
      "skip query parameter must be greater or equal to zero")
  else
    match limit with
    | none => .ok ⟨skip, none⟩
    | some l =>
      if l ≤ 0 then
        .error (create_query_validation_exception "limit"
          "limit query parameter must be greater then zero")
      else
        match max_limit with
        | none => .ok ⟨skip, some l⟩
        | some m =>
          if m ≠ 0 ∧ m < l then
            .error (create_query_validation_exception "limit"
              ("limit query parameter must be less then " ++ toString m))
          else .ok ⟨skip, some l⟩

/-! ## CRUD handlers over a registered model

The handlers are modelled over a concrete registered model (`User` in
`dblib.models.users`: pk field `uuid`, managed fields `created_at`/`updated_at`,
one data field `name`), with the database table as a list of rows in insertion
order.  The `ORDER BY pk` of the storage engine is modelled as a (stable)
insertion sort on the pk. -/

structure Row where
  uuid : Nat
  created_at : Nat
  updated_at : Nat
  name : String
  deriving DecidableEq, Repr

/-- An instance of the derived read schema (`usersUser`): the model's fields
minus the managed ones, so `uuid` and `name`. -/
structure ReadRec where
  uuid : Nat
  name : String
  deriving DecidableEq, Repr

/-- An instance of the derived create/update schemas (`usersUserCreate` /
`usersUserUpdate`): the model's fields minus managed fields and pk. -/
structure PayloadRec where
  name : String
  deriving DecidableEq, Repr

/-- The raised `HTTPException(status_code, detail)`. -/
structure HTTPErr where
  status_code : Nat
  detail : String
  deriving DecidableEq, Repr

/-- The f-string `f"{self.sql_model.__name__.lower()} not found"`; `.lower()`
is modelled character-wise. -/
def notFoundDetail (model_name : String) : String :=
  (⟨model_name.toList.map Char.toLower⟩ : String) ++ " not found"

/-- An object handed to the SQLAlchemy session: either an ORM-mapped row, or a
pydantic read-schema instance (which the session cannot map). -/
inductive SessionObj where
  | rowObj (r : Row)
  | readObj (s : ReadRec)
  deriving DecidableEq, Repr

inductive RouteErr where
  | http (e : HTTPErr)
  | unmappedInstance
  deriving DecidableEq, Repr

/-- `session.delete(obj)`: removes a mapped row from the table; raises
`UnmappedInstanceError` on a non-ORM object such as a pydantic schema value. -/
def dbDelete (table : List Row) : SessionObj → Except RouteErr (List Row)
  | .rowObj r => .ok (table.filter (fun x => !(x == r)))
  | .readObj _ => .error .unmappedInstance

/-- `session.refresh(obj)`: reloads a mapped row; raises
`UnmappedInstanceError` on a non-ORM object. -/
def dbRefresh (_table : List Row) : SessionObj → Except RouteErr Row
  | .rowObj r => .ok r
  | .readObj _ => .error .unmappedInstance

def rowLE (a b : Row) : Prop := a.uuid ≤ b.uuid

instance : DecidableRel rowLE := fun a b => inferInstanceAs (Decidable (a.uuid ≤ b.uuid))

instance : IsTotal Row rowLE := ⟨fun a b => Nat.le_total a.uuid b.uuid⟩

instance : IsTrans Row rowLE := ⟨fun _ _ _ h h2 => Nat.le_trans h h2⟩

/-- The projection `self.schema(**row.dict())`: pydantic ignores the extra
managed fields and keeps the read-schema ones. -/
def readSchemaOf (r : Row) : ReadRec := ⟨r.uuid, r.name⟩

/-- SQL `LIMIT`: `limit(None)` imposes no bound. -/
def takeOpt (limit : Option Int) (l : List α) : List α :=
  match limit with
  | none => l
  | some n => l.take n.toNat

/-- The `_get_all` route (src/crudapi/router.py lines 113-132): select all
rows ordered by pk ascending, apply OFFSET `skip` and LIMIT `limit`, and
project each row to the read schema. -/
def get_all (table : List Row) (p : PaginationReq) : List ReadRec :=
  (takeOpt p.limit ((List.insertionSort rowLE table).drop p.skip.toNat)).map readSchemaOf

/-- The `_get_one` route (src/crudapi/router.py lines 134-149): first row
whose pk equals `uuid`, projected to the read schema; else a 404 with detail
`f"{model_name.lower()} not found"`.  Note the route returns the pydantic
projection, not the mapped row. -/
def get_one (model_name : String) (table : List Row) (uuid : Nat) :
    Except HTTPErr ReadRec :=
  match table.find? (fun r => r.uuid == uuid) with
  | some r => .ok (readSchemaOf r)
  | none => .error ⟨404, notFoundDetail model_name⟩

/-- The server-assigned values the ORM/database fill in on insert + refresh
(pk default, audit timestamps). -/
structure ServerAssigned where
  uuid : Nat
  created_at : Nat
  updated_at : Nat
  deriving DecidableEq, Repr

/-- The `_create` route (src/crudapi/router.py lines 151-163): build a mapped
row from the payload fields, persist it, refresh (picking up server-assigned
fields) and return the read-schema projection. -/
def create_route (table : List Row) (model : PayloadRec) (server : ServerAssigned) :
    ReadRec × List Row :=
  let db_model : Row := ⟨server.uuid, server.created_at, server.updated_at, model.name⟩
  (readSchemaOf db_model, table ++ [db_model])

/-- The `_update` route (src/crudapi/router.py lines 165-181): fetch via
`_get_one` — which yields a pydantic read-schema COPY, not the mapped row —
apply every payload field (minus the pk) that the copy has as an attribute via
`setattr` on that copy, `commit()` (no pending ORM change, table unchanged),
then `refresh(db_model)` on the unmapped copy.  Returns the final result and
the table after the call. -/
def update_route (model_name : String) (table : List Row) (uuid : Nat)
    (model : PayloadRec) : Except RouteErr ReadRec × List Row :=
  match get_one model_name table uuid with
  | .error e => (.error (.http e), table)
  | .ok db_model =>
    let patched : ReadRec := { db_model with name := model.name }
    match dbRefresh table (.readObj patched) with
    | .error e => (.error e, table)
    | .ok r => (.ok (readSchemaOf r), table)

/-- The `_delete_one` route (src/crudapi/router.py lines 198-209): fetch via
`_get_one` (a pydantic read-schema copy), pass THAT copy to
`session.delete`, and return `self.schema(**one.dict())`.  Returns the final
result and the table after the call. -/
def delete_one_route (model_name : String) (table : List Row) (uuid : Nat) :
    Except RouteErr ReadRec × List Row :=
  match get_one model_name table uuid with
  | .error e => (.error (.http e), table)
  | .ok one =>
    match dbDelete table (.readObj one) with
    | .error e => (.error e, table)
    | .ok table2 => (.ok one, table2)

/-! ## The module namespace of src/crudapi/router.py and `__init__`'s
route-registration phase -/

/-- Global names bound in src/crudapi/router.py: the import lines (1-11) and
the module-level definitions.  `List` is not among them: the typing import on
line 3 brings in `Optional`, `Type`, ... but not `List`. -/
def moduleGlobals : List String :=
  ["re", "UUID", "Any", "Callable", "Coroutine", "Optional", "Type", "TypeAlias",
   "TypeVar", "database", "APIRouter", "Depends", "HTTPException", "create_model",
   "select", "Delete", "Select", "SQLModel", "status",
   "PAGINATION", "CALLABLE_LIST", "CALLABLE", "Q", "T",
   "AsyncCRUDRouter", "schema_factory", "pagination_factory",
   "create_query_validation_exception", "make_spaces"]

inductive PyErr where
  | nameError (n : String)
  | attributeError (typeName attr : String)
  deriving DecidableEq, Repr

def firstUnresolved (ns : List String) : Option String :=
  ns.find? (fun n => !(moduleGlobals.contains n))

/-- For each of the six `add_api_route` calls of `__init__` (lines 52-101),
in order, the module-global names its argument expressions evaluate at call
time: the two list routes evaluate `Optional[List[self.schema]]`; the other
response models and the `self._error_responses(NOT_FOUND)` arguments resolve
only attributes and locals. -/
def routeRegistrationNames : List (List String) :=
  [["Optional", "List"], [], ["Optional", "List"], [], [], []]

/-- Process the registrations in order, counting the routes registered before
the first unresolved name raises `NameError`. -/
def runRegistrations : List (List String) → Nat → Nat × Option PyErr
  | [], k => (k, none)
  | ns :: rest, k =>
    match firstUnresolved ns with
    | some n => (k, some (.nameError n))
    | none => runRegistrations rest (k + 1)

def initRouteRegistration : Nat × Option PyErr :=
  runRegistrations routeRegistrationNames 0

/-- The whole `AsyncCRUDRouter.__init__`: the schema phase runs (mutating the
shared class-level exclude set), then route registration; construction
succeeds only if every registration does. -/
def asyncCRUDRouterInit (exclude : List String) (sql_model : ModelDef) :
    Except PyErr RouteGroupSchemas × List String :=
  let s := routerSchemas exclude sql_model
  match initRouteRegistration with
  | (_, some e) => (.error e, s.2)
  | (_, none) => (.ok s.1, s.2)

/-- A Python object reaching `_error_responses`: an `HTTPException`, or the
router instance itself. -/
inductive PyObj where
  | httpExc (status_code : Nat) (detail : String)
  | routerInstance
  deriving DecidableEq, Repr

def getStatusCode : PyObj → Except PyErr Nat
  | .httpExc s _ => .ok s
  | .routerInstance => .error (.attributeError "AsyncCRUDRouter" "status_code")

def getDetail : PyObj → Except PyErr String
  | .httpExc _ d => .ok d
  | .routerInstance => .error (.attributeError "AsyncCRUDRouter" "detail")

/-- The body of `_error_responses` (lines 103-107): the dict comprehension
reads `err.status_code` and `err.detail` for each element of `errors`. -/
def error_responses (errors : List PyObj) : Except PyErr (List (Nat × String)) :=
  errors.mapM (fun e => do
    let s ← getStatusCode e
    let d ← getDetail e
    pure (s, d))

/-- `_error_responses` lacks a `self` parameter, so the bound call
`self._error_responses(NOT_FOUND)` passes the router instance as the first
element of `*errors`. -/
def error_responses_bound (selfObj : PyObj) (args : List PyObj) :
    Except PyErr (List (Nat × String)) :=
  error_responses (selfObj :: args)

/-! ## The two space-insertion helpers -/

/-- `re.findall` for `_make_spaces`'s regex `([A-Z]+(?=[A-Z])|[A-Z][a-z]+)`,
scanning left to right.  At an uppercase position with a maximal capital run
of length `n`: the greedy acronym branch matches the first `n - 1` capitals
when `n ≥ 2`; otherwise the capitalized branch matches the capital plus a
nonempty maximal lowercase run; otherwise the scan advances one character.
The fuel argument (one unit per consumed character) only makes the recursion
structural. -/
def findallWordsAux : Nat → List Char → List (List Char)
  | 0, _ => []
  | _, [] => []
  | fuel + 1, c :: rest =>
    if c.isUpper then
      let caps := List.takeWhile Char.isUpper (c :: rest)
      if 2 ≤ caps.length then
        caps.take (caps.length - 1) :: findallWordsAux fuel (rest.drop (caps.length - 2))
      else
        let lows := rest.takeWhile Char.isLower
        if lows.isEmpty then findallWordsAux fuel rest
        else (c :: lows) :: findallWordsAux fuel (rest.drop lows.length)
    else findallWordsAux fuel rest

def findallWords (l : List Char) : List (List Char) :=
  findallWordsAux l.length l

/-- Python's `" ".join(words)` at the character level. -/
def joinSpace : List (List Char) → List Char
  | [] => []
  | [w] => w
  | w :: ws => w ++ ' ' :: joinSpace ws

/-- `_make_spaces` (src/crudapi/router.py lines 273-278). -/
def make_spaces (phrase : String) : String :=
  ⟨joinSpace (findallWords phrase.toList)⟩

/-- The indexed loop of `_spaces_on_capital`: a space is inserted before every
ASCII-uppercase character at index greater than zero. -/
def spacesChars : List Char → Nat → List Char
  | [], _ => []
  | c :: cs, i =>
    (if 0 < i ∧ c.isUpper then [' ', c] else [c]) ++ spacesChars cs (i + 1)

/-- `AsyncCRUDRouter._spaces_on_capital` (src/application/router.py lines
39-47). -/
def spaces_on_capital (phrase : String) : String :=
  String.mk (spacesChars phrase.toList 0)

/-- Python's `str.capitalize()`: first character uppercased, the rest
lowercased. -/
def capitalizePy (s : String) : String :=
  match s.toList with
  | [] => ""
  | c :: cs => ⟨c.toUpper :: cs.map Char.toLower⟩

/-- The documentation tag built in src/crudapi/router.py line 34:
`f"{category.capitalize()} - {_make_spaces(model_name)}"`. -/
def crudapiTag (category model_name : String) : String :=
  capitalizePy category ++ " - " ++ make_spaces model_name

/-- The documentation tag built in src/application/router.py lines 29-30:
`f"{category.capitalize()} - {self._spaces_on_capital(model_name)}"`. -/
def applicationTag (category model_name : String) : String :=
  capitalizePy category ++ " - " ++ spaces_on_capital model_name

/-! ## Spec-side predicates and concrete instances used by the claims -/

/-- A registered data model as the spec's running example has it: `User` in
`dblib.models.users` with pk `uuid`, managed audit timestamps and one data
field. -/
def userModel : ModelDef :=
  ⟨"User", "dblib.models.users",
   [⟨"uuid", "UUID"⟩, ⟨"created_at", "datetime"⟩, ⟨"updated_at", "datetime"⟩,
    ⟨"name", "str"⟩]⟩

/-- The pagination success condition exactly as claim C3 states it, reading
"a max_limit ceiling is configured" as: `max_limit` is present. -/
def specAccepts (max_limit : Option Int) (skip : Int) (limit : Option Int) : Bool :=
  decide (0 ≤ skip) &&
    limit.all (fun l => decide (0 < l) && max_limit.all (fun c => decide (l ≤ c)))

/-- The amended pagination success condition: a configured ceiling of `0` is
falsy in Python and enforces nothing. -/
def specAcceptsAmended (max_limit : Option Int) (skip : Int) (limit : Option Int) : Bool :=
  decide (0 ≤ skip) &&
    limit.all (fun l => decide (0 < l) &&
      max_limit.all (fun c => decide (c = 0) || decide (l ≤ c)))

/-- A model name block of shape `[A-Z][a-z]+`: one capital and a nonempty
lowercase tail. -/
structure CapWord where
  head : Char
  tail : List Char
  deriving DecidableEq, Repr

def CapWord.chars (w : CapWord) : List Char := w.head :: w.tail

def CapWord.WF (w : CapWord) : Prop :=
  w.head.isUpper = true ∧ w.tail ≠ [] ∧ ∀ c ∈ w.tail, c.isLower = true

instance (w : CapWord) : Decidable w.WF := by
  unfold CapWord.WF
  infer_instance

def flattenWords (ws : List CapWord) : List Char :=
  (ws.map CapWord.chars).flatten

/-! ## Theorems -/

/-- C1: the claim says that in every process run, including runs registering
several data models, each Route Group's read projection excludes only the
managed fields and keeps the pk field, while create/update also exclude the
pk.  Evaluating a run that registers two models refutes it: the first
construction's `self.exclude.add(self.pk_field)` mutates the class-level set
shared by all instances, so the second Route Group's read projection excludes
`uuid` as well.  (The first group does satisfy the claim.) -/
theorem processRun_second_read_schema_loses_pk :
    (processRun [userModel, userModel]).map
        (fun g => (g.readSchema.fields.map DerivedField.name,
          g.createSchema.fields.map DerivedField.name,
          g.updateSchema.fields.map DerivedField.name))
      = [(["uuid", "name"], ["name"], ["name"]),
         (["name"], ["name"], ["name"])] := rfl

/-- C2: constructing `AsyncCRUDRouter` raises before any of the six handlers
is registered — the first `add_api_route`'s `Optional[List[self.schema]]`
evaluates the unresolved module global `List`, so zero routes are registered
and construction fails for every model and every exclude-set state; moreover
`_error_responses`, invoked as a bound method, receives the router instance as
its first `*errors` element and fails reading `status_code` from it. -/
theorem asyncCRUDRouterInit_always_raises :
    (∀ (exclude : List String) (m : ModelDef),
        (asyncCRUDRouterInit exclude m).1 = .error (.nameError "List"))
    ∧ initRouteRegistration = (0, some (.nameError "List"))
    ∧ error_responses_bound .routerInstance [.httpExc 404 "Not Found"]
        = .error (.attributeError "AsyncCRUDRouter" "status_code") :=
  ⟨fun _ _ => rfl, rfl, rfl⟩

/-- C3 counterexample: with a configured ceiling `max_limit = 0` and
`limit = 5`, the claim as stated demands a validation error (5 exceeds the
configured ceiling 0), but `max_limit and max_limit < limit` is skipped for
the falsy `0` and the validator returns success. -/
theorem pagination_zero_ceiling_cex :
    pagination (some 0) (some 0) (some 5) = .ok ⟨0, some 5⟩
    ∧ specAccepts (some 0) 0 (some 5) = false :=
  ⟨rfl, rfl⟩

/-- C3 amended: skip defaults to 0 and limit defaults to max_limit; the
validator returns the skip/limit pair exactly when skip is nonnegative and
the effective limit is null or positive and within any configured NONZERO
max_limit ceiling (a ceiling of 0 is falsy in Python and enforces nothing);
otherwise it raises a 422 whose structured detail names the offending query
field — `["query","skip"]` precisely when skip is negative, else
`["query","limit"]`.  The validator is a pure function of the query
parameters: no session argument appears, so it decides before any database
access. -/
theorem pagination_validates (max_limit skipParam limitParam : Option Int) :
    (pagination max_limit skipParam limitParam
        = .ok ⟨skipParam.getD 0, effLimit max_limit limitParam⟩
      ↔ specAcceptsAmended max_limit (skipParam.getD 0)
          (effLimit max_limit limitParam) = true)
    ∧ (∀ r, pagination max_limit skipParam limitParam = .ok r →
        r = ⟨skipParam.getD 0, effLimit max_limit limitParam⟩)
    ∧ (∀ err, pagination max_limit skipParam limitParam = .error err →
        err.status = 422
        ∧ (err.loc = ["query", "skip"] ↔ skipParam.getD 0 < 0)
        ∧ (err.loc = ["query", "skip"] ∨ err.loc = ["query", "limit"])) := by
  unfold pagination specAcceptsAmended
  generalize skipParam.getD 0 = s
  generalize effLimit max_limit limitParam = L
  by_cases h1 : s < 0
  · simp only [if_pos h1]
    refine ⟨?_, ?_, ?_⟩
    · simp [create_query_validation_exception, show ¬(0 ≤ s) from by omega]
    · intro r h
      simp at h
    · intro err h
      simp only [Except.error.injEq] at h
      subst h
      simp [create_query_validation_exception, h1]
  · simp only [if_neg h1]
    rcases L with _ | l
    · refine ⟨?_, ?_, ?_⟩
      · simp [Option.all, show (0 ≤ s) from by omega]
      · intro r h
        simp only [Except.ok.injEq] at h
        exact h.symm
      · intro err h
        simp at h
    · by_cases h2 : l ≤ 0
      · simp only [if_pos h2]
        refine ⟨?_, ?_, ?_⟩
        · simp [Option.all, create_query_validation_exception,
            show ¬(0 < l) from by omega]
        · intro r h
          simp at h
        · intro err h
          simp only [Except.error.injEq] at h
          subst h
          simp [create_query_validation_exception, h1]
      · simp only [if_neg h2]
        rcases max_limit with _ | m
        · refine ⟨?_, ?_, ?_⟩
          · simp [Option.all, show (0 ≤ s) from by omega, show (0 < l) from by omega]
          · intro r h
            simp only [Except.ok.injEq] at h
            exact h.symm
          · intro err h
            simp at h
        · by_cases h3 : m ≠ 0 ∧ m < l
          · simp only [if_pos h3]
            refine ⟨?_, ?_, ?_⟩
            · simp [Option.all, create_query_validation_exception,
                show ¬(m = 0) from h3.1, show ¬(l ≤ m) from by omega]
            · intro r h
              simp at h
            · intro err h
              simp only [Except.error.injEq] at h
              subst h
              simp [create_query_validation_exception, h1]
          · simp only [if_neg h3]
            refine ⟨?_, ?_, ?_⟩
            · simp only [Except.ok.injEq, Option.all, Bool.and_eq_true,
                decide_eq_true_eq, Bool.or_eq_true]
              constructor
              · intro _
                refine ⟨by omega, by omega, ?_⟩
                omega
              · intro _
                trivial
            · intro r h
              simp only [Except.ok.injEq] at h
              exact h.symm
            · intro err h
              simp at h

theorem pagination_validates_witness :
    pagination (some 10) (some 2) (some 5) = .ok ⟨2, some 5⟩ :=
  ((pagination_validates (some 10) (some 2) (some 5)).1).mpr (by decide)

/-- C4: for every model definition, exclusion set and purpose label, the
derived schema has exactly the model's fields minus the excluded names, each
copied field keeping its declared type and being required (no validation
default), and the generated name is `{category}{ModelName}{Purpose}` with the
category taken as the last component of the model's module path. -/
theorem schema_factory_projection (m : ModelDef) (e : List String) (a : String) :
    (∀ n t : String,
        ((⟨n, t, none⟩ : DerivedField) ∈ (schema_factory m e a).fields ↔
          ((⟨n, t⟩ : FieldDef) ∈ m.fields ∧ n ∉ e)))
    ∧ (∀ d ∈ (schema_factory m e a).fields, d.default = none)
    ∧ (schema_factory m e a).schemaName
        = lastModuleComponent m.modModule ++ m.modName ++ a := by
  refine ⟨fun n t => ?_, fun d hd => ?_, rfl⟩
  · constructor
    · intro h
      simp only [schema_factory, List.mem_map, List.mem_filter] at h
      obtain ⟨f, ⟨hf, hex⟩, heq⟩ := h
      cases f
      cases heq
      refine ⟨hf, ?_⟩
      simpa using hex
    · rintro ⟨hf, hex⟩
      simp only [schema_factory, List.mem_map, List.mem_filter]
      exact ⟨⟨n, t⟩, ⟨hf, by simpa using hex⟩, rfl⟩
  · simp only [schema_factory, List.mem_map] at hd
    obtain ⟨f, _, heq⟩ := hd
    rw [← heq]

theorem schema_factory_projection_witness :
    (⟨"uuid", "UUID", none⟩ : DerivedField)
        ∈ (schema_factory userModel classExclude "").fields
    ∧ (⟨"name", "str", none⟩ : DerivedField).default = none :=
  ⟨((schema_factory_projection userModel classExclude "").1 "uuid" "UUID").mpr
      (by decide),
   (schema_factory_projection userModel classExclude "").2.1 ⟨"name", "str", none⟩
      (by decide)⟩

/-- C6: evaluation at the failing input.  On a one-row table, Delete One on
that row's pk feeds the pydantic read-schema copy produced by `_get_one` to
`session.delete`, which rejects the unmapped instance — no projection is
returned and the row is not deleted — while the claim says it returns the
projection and deletes the row.  (On an absent pk the claimed 404 with
lowercase detail does hold, as the second and third conjuncts show.) -/
theorem delete_one_unmapped_bug :
    delete_one_route "User" [⟨1, 0, 0, "Ada"⟩] 1
        = (.error .unmappedInstance, [⟨1, 0, 0, "Ada"⟩])
    ∧ delete_one_route "User" [] 1
        = (.error (.http ⟨404, notFoundDetail "User"⟩), [])
    ∧ notFoundDetail "User" = "user not found" :=
  ⟨rfl, rfl, rfl⟩

/-- C7: Create persists a new row carrying the payload fields plus the
server-assigned ones, returns its read-schema record, and a subsequent Get
One on the returned primary key succeeds with a record that agrees with the
create payload on every create-schema field (here: `name`), provided the
server-assigned pk is fresh, as UUID generation guarantees. -/
theorem create_then_get_one (mn : String) (table : List Row) (model : PayloadRec)
    (server : ServerAssigned) (hfresh : ∀ r ∈ table, r.uuid ≠ server.uuid) :
    get_one mn (create_route table model server).2 (create_route table model server).1.uuid
        = .ok (create_route table model server).1
    ∧ (create_route table model server).1.name = model.name
    ∧ (create_route table model server).2
        = table ++ [⟨server.uuid, server.created_at, server.updated_at, model.name⟩] := by
  refine ⟨?_, rfl, rfl⟩
  unfold get_one create_route readSchemaOf
  rw [List.find?_append]
  have hnone : table.find? (fun r => r.uuid == server.uuid) = none := by
    rw [List.find?_eq_none]
    intro r hr
    simpa using hfresh r hr
  simp [hnone]

theorem create_then_get_one_witness :
    get_one "User" (create_route [⟨1, 0, 0, "x"⟩] ⟨"Ada"⟩ ⟨7, 3, 4⟩).2
        (create_route [⟨1, 0, 0, "x"⟩] ⟨"Ada"⟩ ⟨7, 3, 4⟩).1.uuid
      = .ok (create_route [⟨1, 0, 0, "x"⟩] ⟨"Ada"⟩ ⟨7, 3, 4⟩).1 :=
  (create_then_get_one "User" [⟨1, 0, 0, "x"⟩] ⟨"Ada"⟩ ⟨7, 3, 4⟩ (by decide)).1

/-- C8: evaluation at the failing input.  On an existing row, Update One
fetches the pydantic read-schema copy, applies the payload via `setattr` to
that copy only, and then `session.refresh` rejects the unmapped copy — the
call errors and the stored row keeps its old field values — while the claim
says the payload fields are overwritten.  (On an absent pk it does propagate
the 404 from Get One without modifying anything, as the second conjunct
shows.) -/
theorem update_unmapped_bug :
    update_route "User" [⟨1, 5, 5, "Ada"⟩] 1 ⟨"Lovelace"⟩
        = (.error .unmappedInstance, [⟨1, 5, 5, "Ada"⟩])
    ∧ update_route "User" [] 1 ⟨"Lovelace"⟩
        = (.error (.http ⟨404, "user not found"⟩), []) :=
  ⟨rfl, rfl⟩

/-- C9 counterexample: excluding every field of the model, the claim says
schema derivation fails with `SchemaDerivationError` and returns no schema,
but `_schema_factory` has no failure path and returns a (zero-field) schema. -/
theorem schema_factory_no_failure_cex :
    schema_factory userModel ["uuid", "name", "created_at", "updated_at", "id"] "Create"
      = ⟨"usersUserCreate", []⟩ := rfl

/-- C9 amended: schema derivation is total — it never raises; it yields a
zero-field schema exactly when every model field is excluded, and a field-name
collision on the target cannot occur: when the model's field names are
distinct (pydantic `__fields__` is a dict, so they are), the derived schema's
field names are distinct as well. -/
theorem schema_factory_total (m : ModelDef) (e : List String) (a : String) :
    ((schema_factory m e a).fields = [] ↔ ∀ f ∈ m.fields, f.name ∈ e)
    ∧ ((m.fields.map FieldDef.name).Nodup →
        ((schema_factory m e a).fields.map DerivedField.name).Nodup) := by
  constructor
  · simp [schema_factory, List.filter_eq_nil_iff]
  · intro h
    have heq : (schema_factory m e a).fields.map DerivedField.name
        = (m.fields.filter (fun f => !(e.contains f.name))).map FieldDef.name := by
      simp [schema_factory, List.map_map]
    rw [heq]
    exact h.sublist ((m.fields.filter_sublist).map FieldDef.name)

theorem schema_factory_total_witness :
    ((schema_factory userModel ["uuid"] "Create").fields.map DerivedField.name).Nodup :=
  (schema_factory_total userModel ["uuid"] "Create").2 (by decide)

/-- C5: for every table state and pagination request, List returns the
table's rows ordered by primary key ascending (no further sort key is
imposed), with the first `skip` rows dropped, at most `limit` rows kept (all
remaining rows when the limit is null), projected to the read schema; the
paginated listing is exactly the skip/limit window of the full listing, the
full listing is a permutation of the whole table's projections, and an empty
table yields an empty sequence rather than an error. -/
theorem get_all_correct (table : List Row) (p : PaginationReq) :
    List.Sorted (· ≤ ·) ((get_all table p).map ReadRec.uuid)
    ∧ get_all table p = takeOpt p.limit ((get_all table ⟨0, none⟩).drop p.skip.toNat)
    ∧ (get_all table ⟨0, none⟩).Perm (table.map readSchemaOf)
    ∧ (∀ l, p.limit = some l → (get_all table p).length ≤ l.toNat)
    ∧ get_all ([] : List Row) p = [] := by
  have hsorted : List.Sorted rowLE (List.insertionSort rowLE table) :=
    List.sorted_insertionSort rowLE table
  have hsub : List.Sublist
      (takeOpt p.limit ((List.insertionSort rowLE table).drop p.skip.toNat))
      (List.insertionSort rowLE table) := by
    cases p.limit with
    | none => exact List.drop_sublist _ _
    | some l => exact (List.take_sublist _ _).trans (List.drop_sublist _ _)
  refine ⟨?_, ?_, ?_, ?_, ?_⟩
  · have h2 : List.Pairwise rowLE
        (takeOpt p.limit ((List.insertionSort rowLE table).drop p.skip.toNat)) :=
      hsorted.sublist hsub
    unfold get_all
    rw [List.map_map]
    exact List.pairwise_map.mpr h2
  · unfold get_all
    cases p.limit <;> simp [takeOpt]
  · unfold get_all
    simp only [takeOpt, Int.toNat_zero, List.drop_zero]
    exact (List.perm_insertionSort rowLE table).map readSchemaOf
  · intro l hl
    unfold get_all
    rw [hl]
    simp only [takeOpt, List.length_map]
    exact List.length_take_le _ _
  · unfold get_all
    cases p.limit <;> simp [takeOpt]

theorem get_all_correct_witness :
    (get_all [⟨3, 0, 0, "c"⟩, ⟨1, 0, 0, "a"⟩, ⟨2, 0, 0, "b"⟩] ⟨1, some 1⟩).length ≤ 1 :=
  (get_all_correct [⟨3, 0, 0, "c"⟩, ⟨1, 0, 0, "a"⟩, ⟨2, 0, 0, "b"⟩] ⟨1, some 1⟩).2.2.2.1
    1 rfl

/-- C10 counterexample: the two space-insertion helpers disagree on the model
name `ModelA` — the regex of `_make_spaces` matches no word containing the
trailing capital, while `_spaces_on_capital` inserts a space before it. -/
theorem make_spaces_disagrees_cex :
    make_spaces "ModelA" ≠ spaces_on_capital "ModelA"
    ∧ make_spaces "ModelA" = "Model"
    ∧ spaces_on_capital "ModelA" = "Model A" :=
  ⟨by decide, rfl, rfl⟩

theorem lower_not_upper {c : Char} (h : c.isLower = true) : c.isUpper = false := by
  simp only [Char.isLower, Char.isUpper, Bool.and_eq_true, decide_eq_true_eq,
    ge_iff_le] at h
  simp only [Char.isUpper, Bool.and_eq_false_iff, decide_eq_false_iff_not, ge_iff_le]
  obtain ⟨h1, h2⟩ := h
  right
  intro hc
  rw [UInt32.le_def, BitVec.le_def] at h1 hc
  simp at h1 hc
  omega

theorem upper_not_lower {c : Char} (h : c.isUpper = true) : c.isLower = false := by
  simp only [Char.isLower, Char.isUpper, Bool.and_eq_true, decide_eq_true_eq,
    ge_iff_le] at h
  simp only [Char.isLower, Bool.and_eq_false_iff, decide_eq_false_iff_not, ge_iff_le]
  obtain ⟨h1, h2⟩ := h
  left
  intro hc
  rw [UInt32.le_def, BitVec.le_def] at h2 hc
  simp at h2 hc
  omega

theorem takeWhile_append_all {p : Char → Bool} {l1 : List Char} (l2 : List Char)
    (h : ∀ c ∈ l1, p c = true) :
    (l1 ++ l2).takeWhile p = l1 ++ l2.takeWhile p := by
  induction l1 with
  | nil => simp
  | cons c cs ih =>
    simp only [List.cons_append, List.takeWhile_cons, h c (List.mem_cons_self c cs),
      if_true]
    rw [ih (fun x hx => h x (List.mem_cons_of_mem c hx))]

theorem takeWhile_lower_flatten (ws : List CapWord) (h : ∀ w ∈ ws, w.WF) :
    (flattenWords ws).takeWhile Char.isLower = [] := by
  cases ws with
  | nil => simp [flattenWords]
  | cons w rest =>
    have hu := (h w (List.mem_cons_self _ _)).1
    simp [flattenWords, CapWord.chars, List.takeWhile_cons, upper_not_lower hu]

theorem findall_flatten (ws : List CapWord) : ∀ (fuel : Nat), (∀ w ∈ ws, w.WF) →
    (flattenWords ws).length ≤ fuel →
    findallWordsAux fuel (flattenWords ws) = ws.map CapWord.chars := by
  induction ws with
  | nil =>
    intro fuel _ _
    cases fuel <;> simp [flattenWords, findallWordsAux]
  | cons w rest ih =>
    intro fuel hwf hlen
    obtain ⟨hu, hne, hlow⟩ := hwf w (List.mem_cons_self _ _)
    have hwfr : ∀ v ∈ rest, v.WF := fun v hv => hwf v (List.mem_cons_of_mem _ hv)
    have hflat : flattenWords (w :: rest) = w.head :: (w.tail ++ flattenWords rest) := by
      simp [flattenWords, CapWord.chars]
    obtain ⟨t, ts, hts⟩ : ∃ t ts, w.tail = t :: ts := by
      cases htail : w.tail with
      | nil => exact absurd htail hne
      | cons t ts => exact ⟨t, ts, rfl⟩
    cases fuel with
    | zero =>
      exfalso
      rw [hflat] at hlen
      simp at hlen
    | succ f =>
      have hcapsTail : (w.tail ++ flattenWords rest).takeWhile Char.isUpper = [] := by
        have hlt : t.isLower = true := hlow t (by rw [hts]; exact List.mem_cons_self _ _)
        rw [hts]
        simp [List.takeWhile_cons, lower_not_upper hlt]
      have hcaps : (w.head :: (w.tail ++ flattenWords rest)).takeWhile Char.isUpper
          = [w.head] := by
        simp [List.takeWhile_cons, hu, hcapsTail]
      have hlows : (w.tail ++ flattenWords rest).takeWhile Char.isLower = w.tail := by
        rw [takeWhile_append_all _ hlow, takeWhile_lower_flatten rest hwfr,
          List.append_nil]
      have hlen2 : (flattenWords rest).length ≤ f := by
        rw [hflat] at hlen
        simp [List.length_append] at hlen
        omega
      rw [hflat]
      simp only [findallWordsAux, hu, if_true, hcaps, hlows]
      have h21 : ¬(2 ≤ ([w.head] : List Char).length) := by simp
      rw [if_neg h21]
      have hemp : w.tail.isEmpty = false := by
        rw [hts]
        rfl
      rw [hemp]
      simp only [Bool.false_eq_true, if_false, List.drop_left]
      rw [ih f hwfr hlen2]
      simp [CapWord.chars]

theorem spacesChars_lower (l : List Char) (h : ∀ c ∈ l, c.isLower = true) :
    ∀ i, spacesChars l i = l := by
  induction l with
  | nil => intro i; rfl
  | cons c cs ih =>
    intro i
    have hcu := lower_not_upper (h c (List.mem_cons_self _ _))
    simp [spacesChars, hcu, ih (fun x hx => h x (List.mem_cons_of_mem _ hx))]

theorem spacesChars_append (l1 l2 : List Char) :
    ∀ i, spacesChars (l1 ++ l2) i
      = spacesChars l1 i ++ spacesChars l2 (i + l1.length) := by
  induction l1 with
  | nil => intro i; simp [spacesChars]
  | cons c cs ih =>
    intro i
    simp only [List.cons_append, spacesChars, List.length_cons, List.append_eq,
      ih (i + 1), List.append_assoc]
    rw [show i + (cs.length + 1) = i + 1 + cs.length from by omega]

theorem spacesChars_flatten_pos (ws : List CapWord) :
    ∀ k, (∀ w ∈ ws, w.WF) → 0 < k →
    spacesChars (flattenWords ws) k
      = (ws.map (fun w => ' ' :: w.chars)).flatten := by
  induction ws with
  | nil =>
    intro k _ _
    simp [flattenWords, spacesChars]
  | cons w rest ih =>
    intro k hwf hk
    obtain ⟨hu, hne, hlow⟩ := hwf w (List.mem_cons_self _ _)
    have hwfr : ∀ v ∈ rest, v.WF := fun v hv => hwf v (List.mem_cons_of_mem _ hv)
    have hflat : flattenWords (w :: rest) = w.head :: (w.tail ++ flattenWords rest) := by
      simp [flattenWords, CapWord.chars]
    rw [hflat]
    simp only [spacesChars]
    rw [if_pos ⟨hk, hu⟩]
    rw [spacesChars_append, spacesChars_lower w.tail hlow,
      ih (k + 1 + w.tail.length) hwfr (by omega)]
    simp [CapWord.chars, List.append_assoc]

theorem joinSpace_cons_flatten (x : List Char) (xs : List (List Char)) :
    joinSpace (x :: xs) = x ++ (xs.map (fun w => ' ' :: w)).flatten := by
  induction xs generalizing x with
  | nil => simp [joinSpace]
  | cons y ys ih =>
    simp only [joinSpace, ih y, List.map_cons, List.flatten_cons, List.cons_append,
      List.append_assoc]

/-- C10 amended: the two space-insertion helpers agree on every model name
that is a concatenation of `[A-Z][a-z]+` blocks (one capital, nonempty
lowercase tail), and on such names both modules build the same documentation
tag `{Category} - {space-separated ModelName}`; on other names — acronyms,
trailing capitals, single capitals — they differ, as the counterexample
shows. -/
theorem make_spaces_agrees (ws : List CapWord) (hwf : ∀ w ∈ ws, w.WF) :
    make_spaces ⟨flattenWords ws⟩ = spaces_on_capital ⟨flattenWords ws⟩
    ∧ ∀ category, crudapiTag category ⟨flattenWords ws⟩
        = applicationTag category ⟨flattenWords ws⟩ := by
  have hA : findallWords (flattenWords ws) = ws.map CapWord.chars :=
    findall_flatten ws (flattenWords ws).length hwf le_rfl
  have hmain : make_spaces ⟨flattenWords ws⟩ = spaces_on_capital ⟨flattenWords ws⟩ := by
    unfold make_spaces spaces_on_capital
    have hdata : (String.mk (flattenWords ws)).toList = flattenWords ws := rfl
    rw [hdata]
    congr 1
    cases ws with
    | nil =>
      rw [hA]
      simp [flattenWords, joinSpace, spacesChars]
    | cons w rest =>
      rw [hA, List.map_cons, joinSpace_cons_flatten]
      obtain ⟨hu, hne, hlow⟩ := hwf w (List.mem_cons_self _ _)
      have hwfr : ∀ v ∈ rest, v.WF := fun v hv => hwf v (List.mem_cons_of_mem _ hv)
      have hflat : flattenWords (w :: rest)
          = w.head :: (w.tail ++ flattenWords rest) := by
        simp [flattenWords, CapWord.chars]
      rw [hflat]
      simp only [spacesChars]
      rw [if_neg (by simp)]
      rw [spacesChars_append, spacesChars_lower w.tail hlow,
        spacesChars_flatten_pos rest (0 + 1 + w.tail.length) hwfr (by omega)]
      simp only [CapWord.chars, List.map_map]
      have hfun : ((fun l => ' ' :: l) ∘ CapWord.chars)
          = (fun v : CapWord => ' ' :: v.head :: v.tail) := by
        funext v
        simp [CapWord.chars]
      rw [List.cons_append, hfun]
      simp
  exact ⟨hmain, fun category => by
    unfold crudapiTag applicationTag
    rw [hmain]⟩

theorem make_spaces_agrees_witness :
    make_spaces ⟨flattenWords [⟨'D', ['a', 't', 'a']⟩, ⟨'M', ['o', 'd', 'e', 'l']⟩]⟩
      = spaces_on_capital
          ⟨flattenWords [⟨'D', ['a', 't', 'a']⟩, ⟨'M', ['o', 'd', 'e', 'l']⟩]⟩ :=
  (make_spaces_agrees [⟨'D', ['a', 't', 'a']⟩, ⟨'M', ['o', 'd', 'e', 'l']⟩]
    (by decide)).1

end CrudApi
